import Mathlib

/-!
Shallow embedding of the annual-report analysis pipeline
(`analyze_reports.py`, `web_app.py`, `prompts/aggregate/prompt.py`).

Python dicts holding JSON data are modelled as insertion-ordered
association lists over a JSON value type; the LLM client is modelled by
passing each call's outcome (`Except` for a raised exception, `Option
String` for the returned message content) as an explicit argument.
-/

/-- JSON values as produced by `json.loads` / consumed by `json.dumps`. -/
inductive Json where
  | null : Json
  | bool (b : Bool) : Json
  | num (n : Int) : Json
  | str (s : String) : Json
  | arr (xs : List Json) : Json
  | obj (fields : List (String × Json)) : Json

/-- A Python dict with string keys and JSON values, in insertion order. -/
abbrev Dict := List (String × Json)

/-- Python truthiness of a JSON value (`bool(x)`). -/
def Json.truthy : Json → Bool
  | .null => false
  | .bool b => b
  | .num n => n != 0
  | .str s => s ≠ ""
  | .arr xs => !xs.isEmpty
  | .obj fields => !fields.isEmpty

/-- Dict lookup (`d[k]` / `d.get(k)`), first binding wins. -/
def Dict.getKey (d : Dict) (k : String) : Option Json :=
  match d with
  | [] => none
  | (k', v) :: rest => if k' = k then some v else Dict.getKey rest k

/-- Dict update `d[k] = v`: replaces the value in place if the key is
present, otherwise appends the new binding (Python dict semantics). -/
def Dict.setKey (d : Dict) (k : String) (v : Json) : Dict :=
  match d with
  | [] => [(k, v)]
  | (k', v') :: rest =>
    if k' = k then (k', v) :: rest else (k', v') :: Dict.setKey rest k v

/-- Membership test `k in d`. -/
def Dict.hasKey (d : Dict) (k : String) : Bool :=
  (Dict.getKey d k).isSome

/-- One collected report (dataclass `Report` in `analyze_reports.py`).
Paths are modelled as POSIX path strings. -/
structure Report where
  path : String
  department : String
  title : String
  role : String
  content : String
  deriving Repr, DecidableEq

/-- Extension allow-list `ALLOWED_SUFFIXES`. -/
def ALLOWED_SUFFIXES : List String := [".txt", ".md", ".docx"]

/-- Manager keyword list `MANAGER_HINTS`. -/
def MANAGER_HINTS : List String :=
  ["干部", "领导", "经理", "主管", "总监", "部长", "书记", "主任", "处长", "科长"]

/-- Static industry context string `INDUSTRY_CONTEXT`. -/
def INDUSTRY_CONTEXT : String :=
  "部门聚焦钢铁行业解决方案交付，场景涵盖生产、质量、计划、物流、成本、ERP/产品运营等。" ++
  "研发包含前端与后端开发；产品为产品经理；模型算法室负责算法赋能；" ++
  "质量做钢厂质量分析与质量设计；物流做钢厂物流功能；产品运营室类似 ERP；" ++
  "计划做钢厂生产计划；管理层为部门领导与管控。"

/-- Contiguous-sublist test over character lists. -/
def charsContain (haystack needle : List Char) : Bool :=
  match haystack with
  | [] => needle.isEmpty
  | _ :: rest => needle.isPrefixOf haystack || charsContain rest needle

/-- Python substring test `needle in haystack` on strings. -/
def strContains (haystack needle : String) : Bool :=
  charsContain haystack.toList needle.toList

/-- Role detection `detect_role(title)`: `cadre` when any manager keyword
occurs in the title, else `employee`. -/
def detect_role (title : String) : String :=
  if MANAGER_HINTS.any (fun key => strContains title key) then "cadre" else "employee"

/-- Final path component (`PurePath.name` for a POSIX path string). -/
def pathName (p : String) : String :=
  match (p.splitOn "/").getLast? with
  | some n => n
  | none => ""

/-- Position (from the right) of the last dot strictly inside the name,
used to split off the extension; `none` when the name has no extension
(`PurePath.suffix` is empty for dotfiles such as `.bashrc`). -/
def nameSuffix (name : String) : String :=
  let cs := name.toList
  let rev := cs.reverse
  match rev.findIdx? (fun c => c = '.') with
  | none => ""
  | some i =>
    -- last dot sits at index cs.length - 1 - i from the left; pathlib
    -- yields a suffix only for 0 < rfind < len(name) - 1
    if i = 0 || cs.length - 1 - i = 0 then ""
    else String.mk (('.' :: (rev.take i).reverse))

/-- Extension of the final component (`PurePath.suffix`). -/
def pathSuffix (p : String) : String :=
  nameSuffix (pathName p)

/-- One filesystem entry as yielded by `root.rglob("*")`. -/
structure FSEntry where
  path : String
  isFile : Bool
  deriving Repr, DecidableEq

/-- Whether a path passes the extension filter of `collect_reports`
(`file_path.suffix.lower() in ALLOWED_SUFFIXES`). -/
def allowedPath (p : String) : Bool :=
  ALLOWED_SUFFIXES.contains (pathSuffix p).toLower

/-- Ordering used by `sorted(root.rglob("*"))`: `pathlib` path objects
compare by their path string (POSIX `_str_normcase`). -/
def entryLE (a b : FSEntry) : Prop := a.path ≤ b.path

instance : DecidableRel entryLE := fun a b => by
  unfold entryLE; infer_instance

instance : IsTotal FSEntry entryLE :=
  ⟨fun a b => le_total a.path b.path⟩

instance : IsTrans FSEntry entryLE :=
  ⟨fun _ _ _ h₁ h₂ => le_trans h₁ h₂⟩

/-- Paths collected by `collect_reports`: sort all entries, keep regular
files with an allowed extension (lines 149-160 of `analyze_reports.py`;
department/title/role/content derivation is per-entry and orthogonal to
which paths are kept). -/
def collect_report_paths (fs : List FSEntry) : List String :=
  (((fs.insertionSort entryLE).filter
      (fun e => e.isFile && allowedPath e.path)).map (fun e => e.path))

/-- Whitespace as skipped by the JSON grammar. -/
def jsonWs (c : Char) : Bool := c = ' ' || c = '\t' || c = '\n' || c = '\r'

/-- Drop leading JSON whitespace. -/
def skipWs : List Char → List Char
  | [] => []
  | c :: cs => if jsonWs c then skipWs cs else c :: cs

/-- Parse the body of a JSON string after the opening quote; returns the
decoded characters and the remaining input after the closing quote. -/
def parseStrChars : List Char → Option (List Char × List Char)
  | [] => none
  | '"' :: rest => some ([], rest)
  | '\\' :: e :: rest =>
    let c := match e with
      | 'n' => '\n'
      | 't' => '\t'
      | 'r' => '\r'
      | other => other
    (parseStrChars rest).map (fun p => (c :: p.1, p.2))
  | c :: rest => (parseStrChars rest).map (fun p => (c :: p.1, p.2))

/-- Decimal digits to a natural number. -/
def digitsToNat (ds : List Char) : Nat :=
  ds.foldl (fun acc c => acc * 10 + (c.toNat - '0'.toNat)) 0

/-- Opening brace character. -/
def lbrace : Char := Char.ofNat 123

/-- Closing brace character. -/
def rbrace : Char := Char.ofNat 125

/-- Parser mode: a single value, the items of a non-empty array, or the
members of a non-empty object. -/
inductive PMode where
  | val : PMode
  | items : PMode
  | fields : PMode

/-- Recursive-descent JSON parser (model of Python `json.loads`,
restricted to integer numerals and the common string escapes; the
pipeline only ever inspects parse success and the parsed object).
In mode `.items` it parses the comma-separated items of a non-empty
array up to `]` and yields them as an `.arr`; in mode `.fields` it
parses the members of a non-empty object up to the closing brace and
yields them as an `.obj`. -/
def parseJ : Nat → PMode → List Char → Option (Json × List Char)
  | 0, _, _ => none
  | fuel + 1, .val, cs =>
    match skipWs cs with
    | [] => none
    | c :: rest =>
      if c = '"' then
        (parseStrChars rest).map (fun p => (.str (String.mk p.1), p.2))
      else if c = '[' then
        match skipWs rest with
        | ']' :: r => some (.arr [], r)
        | r2 => parseJ fuel .items r2
      else if c = lbrace then
        match skipWs rest with
        | d :: r => if d = rbrace then some (.obj [], r)
                    else parseJ fuel .fields (d :: r)
        | [] => none
      else if c = 't' then
        if ['r', 'u', 'e'].isPrefixOf rest then some (.bool true, rest.drop 3) else none
      else if c = 'f' then
        if ['a', 'l', 's', 'e'].isPrefixOf rest then some (.bool false, rest.drop 4) else none
      else if c = 'n' then
        if ['u', 'l', 'l'].isPrefixOf rest then some (.null, rest.drop 3) else none
      else if c = '-' || c.isDigit then
        let cs2 := if c = '-' then rest else c :: rest
        let digits := cs2.takeWhile Char.isDigit
        let after := cs2.dropWhile Char.isDigit
        if digits.isEmpty then none
        else
          match after with
          | '.' :: _ => none
          | 'e' :: _ => none
          | 'E' :: _ => none
          | _ =>
            let n : Int := (digitsToNat digits : Int)
            some (.num (if c = '-' then -n else n), after)
      else none
  | fuel + 1, .items, cs =>
    match parseJ fuel .val cs with
    | none => none
    | some (v, r) =>
      match skipWs r with
      | ',' :: r2 =>
        match parseJ fuel .items r2 with
        | some (.arr vs, r3) => some (.arr (v :: vs), r3)
        | _ => none
      | ']' :: r2 => some (.arr [v], r2)
      | _ => none
  | fuel + 1, .fields, cs =>
    match skipWs cs with
    | '"' :: r =>
      match parseStrChars r with
      | none => none
      | some (k, r1) =>
        match skipWs r1 with
        | ':' :: r2 =>
          match parseJ fuel .val r2 with
          | none => none
          | some (v, r3) =>
            match skipWs r3 with
            | ',' :: r4 =>
              match parseJ fuel .fields r4 with
              | some (.obj fs, r5) => some (.obj ((String.mk k, v) :: fs), r5)
              | _ => none
            | d :: r4 => if d = rbrace then some (.obj [(String.mk k, v)], r4) else none
            | [] => none
        | _ => none
    | _ => none

/-- Model of `json.loads`: parse one value and require only trailing
whitespace after it. -/
def json_loads (s : String) : Option Json :=
  match parseJ (2 * s.length + 2) .val (skipWs s.toList) with
  | some (v, rest) => if (skipWs rest).isEmpty then some v else none
  | none => none

/-- Whitespace characters stripped by Python `str.strip()`. -/
def pySpace (c : Char) : Bool :=
  c = ' ' || c = '\t' || c = '\n' || c = '\r' || c = '\x0b' || c = '\x0c'

/-- Python `str.strip()` on a character list. -/
def stripChars (cs : List Char) : List Char :=
  ((cs.dropWhile pySpace).reverse.dropWhile pySpace).reverse

/-- Python `str.strip()`. -/
def pyStripStr (s : String) : String := String.mk (stripChars s.toList)

/-- Python `str.replace` on character lists, with fuel for structural
recursion: replaces non-overlapping occurrences left to right. -/
def replaceCharsAux : Nat → List Char → List Char → List Char → List Char
  | 0, s, _, _ => s
  | fuel + 1, s, pat, rep =>
    match s with
    | [] => []
    | c :: rest =>
      if pat.isEmpty then c :: rest
      else if pat.isPrefixOf (c :: rest) then
        rep ++ replaceCharsAux fuel ((c :: rest).drop pat.length) pat rep
      else c :: replaceCharsAux fuel rest pat rep

/-- Python `str.replace` (all occurrences). -/
def pyReplace (s pat rep : String) : String :=
  String.mk (replaceCharsAux s.length s.toList pat.toList rep.toList)

/-- Fence stripping on parse failure (lines 216-217 of
`analyze_reports.py`): strip, remove all occurrences of three-backtick
json markers and of bare three-backtick markers, strip again. -/
def stripFences (content : String) : String :=
  pyStripStr (pyReplace (pyReplace (pyStripStr content) "```json" "") "```" "")

/-- Condition `k not in data or not data[k]` of the repair step. -/
def missingOrFalsy (d : Dict) (k : String) : Bool :=
  match d.getKey k with
  | none => true
  | some v => !v.truthy

/-- Condition of the role repair: `"role" not in data or data["role"] not
in {"cadre", "employee"}`. -/
def roleMissingOrInvalid (d : Dict) : Bool :=
  match d.getKey "role" with
  | some (.str s) => !(s = "cadre" || s = "employee")
  | _ => true

/-- One conditional substitution `if k not in data or not data[k]:
data[k] = w` of the repair step. -/
def repairStep (d : Dict) (k : String) (w : Json) : Dict :=
  if missingOrFalsy d k then d.setKey k w else d

/-- The conditional role substitution of the repair step. -/
def repairRole (d : Dict) (role : String) : Dict :=
  if roleMissingOrInvalid d then d.setKey "role" (.str role) else d

/-- Post-parse repair of a summary dict (lines 222-230 of
`analyze_reports.py`): force `source_path`, then substitute
`name`/`department`/`role`/`workload` when absent, falsy or invalid,
in that order, each test seeing the previous updates. -/
def repairFields (data : Dict) (report : Report) : Dict :=
  repairStep
    (repairRole
      (repairStep
        (repairStep (data.setKey "source_path" (.str report.path))
          "name" (.str report.title))
        "department" (.str report.department))
      report.role)
    "workload" (.str "未提及/估计")

/-- One individual summarization (`summarize_individual`, lines 171-231):
`apiResult` is the outcome of the chat-completion call — `.error` when
the client raised, `.ok none` when no choice/content came back, `.ok
(some c)` for returned message content `c`. Item assignment on a
non-dict parse result raises a `TypeError` in Python, modelled as an
error value. -/
def summarize_individual (report : Report) (apiResult : Except String (Option String)) :
    Except String Dict :=
  match apiResult with
  | .error exc => .error ("调用模型失败: " ++ exc)
  | .ok content =>
    let contentStr := content.getD ""
    if contentStr = "" then .error "模型未返回内容"
    else
      match json_loads contentStr with
      | some (.obj fields) => .ok (repairFields fields report)
      | some _ => .error "TypeError: item assignment on non-dict JSON value"
      | none =>
        match json_loads (stripFences contentStr) with
        | some (.obj fields) => .ok (repairFields fields report)
        | some _ => .error "TypeError: item assignment on non-dict JSON value"
        | none => .error ("无法解析模型返回的 JSON: ; content=" ++ contentStr)

/-- Placeholder record for a failed summarization (`make_failure_record`,
lines 310-330). -/
def make_failure_record (report : Report) (error : String) : Dict :=
  [("name", .str report.title),
   ("department", .str report.department),
   ("role", .str report.role),
   ("position", .str ""),
   ("title", .str ""),
   ("entry_date", .str ""),
   ("key_results", .arr []),
   ("strengths", .arr []),
   ("improvements", .arr []),
   ("self_review", .arr []),
   ("issues", .arr []),
   ("suggestions", .arr []),
   ("workload", .str "提炼失败（估计）"),
   ("support_to_departments", .arr []),
   ("risk_flags", .arr []),
   ("source_path", .str report.path),
   ("error", .str error)]

/-- The per-report loop of `main` (lines 385-404): each collected report
contributes exactly one entry to `people` — the repaired summary on
success, a failure record on any exception. `resp` gives each report's
chat-completion outcome. -/
def processReports (resp : Report → Except String (Option String)) (reports : List Report) :
    List Dict :=
  reports.map (fun r =>
    match summarize_individual r (resp r) with
    | .ok summary => summary
    | .error exc => make_failure_record r exc)

/-- Python `dict.get(k, default)`. -/
def dictGetD (d : Dict) (k : String) (dft : Json) : Json :=
  match d.getKey k with
  | some v => v
  | none => dft

/-- Field allow-list compaction of one summary inside
`build_aggregate_prompt` (lines 239-259): missing keys become `None`,
missing list-valued keys become `[]`. -/
def compactPerson (person : Dict) : Dict :=
  [("name", dictGetD person "name" .null),
   ("department", dictGetD person "department" .null),
   ("role", dictGetD person "role" .null),
   ("position", dictGetD person "position" .null),
   ("title", dictGetD person "title" .null),
   ("entry_date", dictGetD person "entry_date" .null),
   ("key_results", dictGetD person "key_results" (.arr [])),
   ("strengths", dictGetD person "strengths" (.arr [])),
   ("improvements", dictGetD person "improvements" (.arr [])),
   ("self_review", dictGetD person "self_review" (.arr [])),
   ("issues", dictGetD person "issues" (.arr [])),
   ("suggestions", dictGetD person "suggestions" (.arr [])),
   ("workload", dictGetD person "workload" .null),
   ("support_to_departments", dictGetD person "support_to_departments" (.arr [])),
   ("risk_flags", dictGetD person "risk_flags" (.arr [])),
   ("error", dictGetD person "error" .null)]

/-- JSON string escaping used by `json.dumps` (ensure_ascii=False; only
the escapes relevant to the pipeline's data are modelled). -/
def jsonEscapeChar (c : Char) : List Char :=
  if c = '"' then ['\\', '"']
  else if c = '\\' then ['\\', '\\']
  else if c = '\n' then ['\\', 'n']
  else if c = '\t' then ['\\', 't']
  else if c = '\r' then ['\\', 'r']
  else [c]

/-- Quote and escape a string as a JSON string literal. -/
def jsonQuote (s : String) : String :=
  "\"" ++ String.mk (s.toList.map jsonEscapeChar).flatten ++ "\""

/-- A run of spaces, for `json.dumps(..., indent=2)` indentation. -/
def indentStr (n : Nat) : String := String.mk (List.replicate n ' ')

mutual

/-- Model of `json.dumps(v, ensure_ascii=False, indent=2)` at nesting
level `lvl`. -/
def dumpVal : Nat → Json → String
  | _, .null => "null"
  | _, .bool true => "true"
  | _, .bool false => "false"
  | _, .num n => toString n
  | _, .str s => jsonQuote s
  | _, .arr [] => "[]"
  | lvl, .arr (x :: xs) =>
    "[\n" ++ dumpElems (lvl + 1) (x :: xs) ++ "\n" ++ indentStr (2 * lvl) ++ "]"
  | _, .obj [] => "\x7b\x7d"
  | lvl, .obj (f :: fs) =>
    "\x7b\n" ++ dumpMembers (lvl + 1) (f :: fs) ++ "\n" ++ indentStr (2 * lvl) ++ "\x7d"

/-- Array elements of an indent-2 dump, one per line. -/
def dumpElems : Nat → List Json → String
  | _, [] => ""
  | lvl, [x] => indentStr (2 * lvl) ++ dumpVal lvl x
  | lvl, x :: y :: xs =>
    indentStr (2 * lvl) ++ dumpVal lvl x ++ ",\n" ++ dumpElems lvl (y :: xs)

/-- Object members of an indent-2 dump, one per line. -/
def dumpMembers : Nat → List (String × Json) → String
  | _, [] => ""
  | lvl, [(k, v)] => indentStr (2 * lvl) ++ jsonQuote k ++ ": " ++ dumpVal lvl v
  | lvl, (k, v) :: f :: fs =>
    indentStr (2 * lvl) ++ jsonQuote k ++ ": " ++ dumpVal lvl v ++ ",\n" ++ dumpMembers lvl (f :: fs)

end

/-- The single-quote character. -/
def squote : Char := Char.ofNat 39

/-- Character escaping inside a Python `repr` string literal with quote
character `q`. -/
def pyReprEscape (q c : Char) : List Char :=
  if c = '\\' then ['\\', '\\']
  else if c = '\n' then ['\\', 'n']
  else if c = '\t' then ['\\', 't']
  else if c = '\r' then ['\\', 'r']
  else if c = q then ['\\', q]
  else [c]

/-- Python `repr` of a string: single-quoted, switching to double quotes
when the text contains a single quote but no double quote. -/
def pyReprStr (s : String) : String :=
  let q := if s.toList.contains squote && !(s.toList.contains '"') then '"' else squote
  String.mk ((q :: (s.toList.map (pyReprEscape q)).flatten) ++ [q])

mutual

/-- Python `str`/`repr` of a JSON-shaped value (lists/dicts print with
`repr` of their elements; as interpolated by the module prompt's
f-string). -/
def pyReprVal : Json → String
  | .null => "None"
  | .bool true => "True"
  | .bool false => "False"
  | .num n => toString n
  | .str s => pyReprStr s
  | .arr xs => "[" ++ pyReprElems xs ++ "]"
  | .obj fs => "\x7b" ++ pyReprMembers fs ++ "\x7d"

/-- Comma-separated `repr` of list elements. -/
def pyReprElems : List Json → String
  | [] => ""
  | [x] => pyReprVal x
  | x :: y :: xs => pyReprVal x ++ ", " ++ pyReprElems (y :: xs)

/-- Comma-separated `repr` of dict members. -/
def pyReprMembers : List (String × Json) → String
  | [] => ""
  | [(k, v)] => pyReprStr k ++ ": " ++ pyReprVal v
  | (k, v) :: f :: fs => pyReprStr k ++ ": " ++ pyReprVal v ++ ", " ++ pyReprMembers (f :: fs)

end

/-- User prompt built by `build_prompt` in `prompts/aggregate/prompt.py`
(lines 117-126): an f-string that interpolates the industry context and
the Python `str()` of the compacted people list; the plan addendum does
not appear. -/
def aggregate_module_user_prompt (compact : List Dict) : String :=
  "\nIndustry background: " ++ INDUSTRY_CONTEXT ++
  "\n\nStructured individual summaries (JSON already parsed; used as factual input):\n" ++
  pyReprVal (.arr (compact.map .obj)) ++
  "\n\n请基于以上内容，按照 system prompt 的要求生成中文报告，不要添加无来源的事实。\n"

/-- Python `str.strip()` of the plan addendum. -/
def pyStrip (s : String) : String := pyStripStr s

/-- Addendum segment of the fallback prompt: the stripped plan addendum
when truthy, else the explicit `None` sentinel (`extra or 'None'`). -/
def aggregateAddendum (extra_prompt : Option String) : String :=
  let extra := match extra_prompt with
    | some s => if s ≠ "" then pyStrip s else ""
    | none => ""
  if extra = "" then "None" else extra

/-- The aggregate user prompt (`build_aggregate_prompt`, lines 234-273):
`builderLoaded` is true when `prompts.aggregate.prompt.build_prompt`
was importable and returned without raising (the repository ships that
module, so this holds in a normal run from the repo root); otherwise
the inline fallback string is used. -/
def build_aggregate_prompt (builderLoaded : Bool) (people : List Dict)
    (extra_prompt : Option String) : String :=
  let compact := people.map compactPerson
  let people_json := dumpVal 0 (.arr (compact.map .obj))
  if builderLoaded then aggregate_module_user_prompt compact
  else
    "Industry background: " ++ INDUSTRY_CONTEXT ++ "\n\n" ++
    "Structured individual summaries:\n" ++ people_json ++ "\n\n" ++
    "Additional context: " ++ aggregateAddendum extra_prompt ++ "\n" ++
    "Please generate the organization report per the system prompt requirements."

/-- Outcome of `aggregate_review` (lines 276-307) as a function of the
aggregate chat-completion outcome: client exception and missing content
become errors, returned content is stripped. -/
def aggregate_review_result (aggApi : Except String (Option String)) : Except String String :=
  match aggApi with
  | .error exc => .error ("调用模型失败: " ++ exc)
  | .ok content =>
    let c := content.getD ""
    if c = "" then .error "模型未返回内容"
    else .ok (pyStripStr c)

/-- Run parameters that appear in the report header, already rendered to
strings. -/
structure RunConfig where
  timestamp : String
  model : String
  aggregate_model : String
  temperature : String

/-- Header block of `organization_review.md` (lines 428-433). -/
def mkHeader (cfg : RunConfig) : String :=
  "# 年终总结评审\n\n生成时间：" ++ cfg.timestamp ++
  "\n使用模型：个人提炼=" ++ cfg.model ++ "；汇总=" ++ cfg.aggregate_model ++
  "\n采样温度：" ++ cfg.temperature ++ "\n\n"

/-- Observable outcome of one `main` run: exit status, how many
individual/aggregate chat-completion requests were issued, the batch
sequence `people`, and the `organization_review.md` artifact. -/
structure MainResult where
  exitCode : Nat
  individualCalls : Nat
  aggregateCalls : Nat
  people : List Dict
  orgReviewWritten : Bool
  orgReviewContent : String

/-- The phase structure of `main` (lines 377-437) after `create_client`
(which only constructs a client and issues no request): abort with
`SystemExit` when no report was collected; otherwise one individual
request per report, then one aggregate request whose failure still
writes the artifact with a failure message but exits non-zero. -/
def run_pipeline (cfg : RunConfig) (reports : List Report)
    (resp : Report → Except String (Option String))
    (aggApi : Except String (Option String)) : MainResult :=
  if reports.isEmpty then
    { exitCode := 1, individualCalls := 0, aggregateCalls := 0,
      people := [], orgReviewWritten := false, orgReviewContent := "" }
  else
    let people := processReports resp reports
    let aggPair :=
      match aggregate_review_result aggApi with
      | .ok md => (md, (none : Option String))
      | .error e => ("生成失败：" ++ e, some e)
    { exitCode := if aggPair.2.isSome then 1 else 0,
      individualCalls := reports.length,
      aggregateCalls := 1,
      people := people,
      orgReviewWritten := true,
      orgReviewContent := mkHeader cfg ++ aggPair.1 ++ "\n" }

/-- Python truthiness of an optional string (`if api_key:`). -/
def pyTruthyOptStr : Option String → Bool
  | none => false
  | some s => s ≠ ""

/-- Credential handling of `web_app.run_analysis` (lines 157-225),
projected onto the `DEEPSEEK_API_KEY` environment variable: back up the
pre-call value, override it when a per-run `api_key` is truthy, run the
pipeline body (which may itself rewrite the variable, e.g. via
`load_env_from_file`), then in the `finally` block pop the variable if
the backup was absent or restore the backed-up value. The result is the
variable's value after `run_analysis` returns. -/
def run_analysis_env (pre : Option String) (api_key : Option String)
    (body : Option String → Option String) : Option String :=
  let env_backup := pre
  let envDuring := if pyTruthyOptStr api_key then api_key else pre
  let _envAfterBody := body envDuring
  match env_backup with
  | none => none
  | some v => some v

theorem Dict.getKey_setKey (d : Dict) (k k' : String) (v : Json) :
    (d.setKey k v).getKey k' = if k = k' then some v else d.getKey k' := by
  induction d with
  | nil =>
    by_cases h : k = k'
    · simp [Dict.setKey, Dict.getKey, h]
    · simp [Dict.setKey, Dict.getKey, h]
  | cons hd tl ih =>
    obtain ⟨k₀, v₀⟩ := hd
    by_cases h₀ : k₀ = k
    · subst h₀
      by_cases h₁ : k₀ = k'
      · subst h₁
        simp [Dict.setKey, Dict.getKey]
      · simp [Dict.setKey, Dict.getKey, h₁]
    · by_cases h₁ : k₀ = k'
      · subst h₁
        have hkk : ¬k = k₀ := fun h => h₀ h.symm
        simp [Dict.setKey, Dict.getKey, h₀, hkk]
      · simp [Dict.setKey, Dict.getKey, h₀, h₁, ih]

theorem charsContain_iff (needle haystack : List Char) :
    charsContain haystack needle = true ↔ needle <:+: haystack := by
  induction haystack with
  | nil =>
    simp [charsContain, List.isEmpty_iff]
  | cons c rest ih =>
    rw [List.infix_cons_iff]
    simp [charsContain, ih]

theorem strContains_iff (haystack needle : String) :
    strContains haystack needle = true ↔ needle.toList <:+: haystack.toList :=
  charsContain_iff needle.toList haystack.toList

/-- C5: for every report title, the detected role is `cadre` if and only
if the title contains at least one of the fixed manager keywords as a
substring, and `employee` otherwise. -/
theorem detect_role_iff_keyword (title : String) :
    (detect_role title = "cadre" ↔
      ∃ key ∈ MANAGER_HINTS, key.toList <:+: title.toList) ∧
    (detect_role title = "cadre" ∨ detect_role title = "employee") := by
  unfold detect_role
  by_cases h : MANAGER_HINTS.any (fun key => strContains title key) = true
  · rw [if_pos h]
    refine ⟨⟨fun _ => ?_, fun _ => rfl⟩, Or.inl rfl⟩
    rw [List.any_eq_true] at h
    obtain ⟨key, hk, hc⟩ := h
    exact ⟨key, hk, (strContains_iff title key).mp hc⟩
  · rw [if_neg h]
    refine ⟨⟨fun he => absurd he (by decide), fun ⟨key, hk, hs⟩ => ?_⟩, Or.inr rfl⟩
    exact absurd (List.any_eq_true.mpr ⟨key, hk, (strContains_iff title key).mpr hs⟩) h

/-- C9: whether the run succeeds or fails, `run_analysis` leaves
`DEEPSEEK_API_KEY` with the value it had before the call — restored when
a backup existed, removed when it was unset — even when a per-run
`api_key` was supplied and whatever the pipeline body did to it. -/
theorem run_analysis_restores_api_key (pre api_key : Option String)
    (body : Option String → Option String) :
    run_analysis_env pre api_key body = pre := by
  unfold run_analysis_env
  cases pre <;> rfl

theorem repairStep_getKey_self (d : Dict) (k : String) (w : Json) (hw : w.truthy = true) :
    ∃ v, (repairStep d k w).getKey k = some v ∧ v.truthy = true := by
  unfold repairStep
  by_cases h : missingOrFalsy d k = true
  · exact ⟨w, by rw [if_pos h]; simp [Dict.getKey_setKey], hw⟩
  · rw [if_neg (by simpa using h)]
    unfold missingOrFalsy at h
    rcases hv : d.getKey k with _ | v
    · rw [hv] at h; simp at h
    · rw [hv] at h
      refine ⟨v, rfl, ?_⟩
      simpa using h

theorem repairStep_getKey_ne (d : Dict) (k k' : String) (w : Json) (h : ¬k = k') :
    (repairStep d k w).getKey k' = d.getKey k' := by
  unfold repairStep
  by_cases hb : missingOrFalsy d k = true
  · rw [if_pos hb]; simp [Dict.getKey_setKey, h]
  · rw [if_neg (by simpa using hb)]

theorem repairRole_getKey_ne (d : Dict) (role k' : String) (h : ¬"role" = k') :
    (repairRole d role).getKey k' = d.getKey k' := by
  unfold repairRole
  by_cases hb : roleMissingOrInvalid d = true
  · rw [if_pos hb]; simp [Dict.getKey_setKey, h]
  · rw [if_neg (by simpa using hb)]

theorem repairRole_getKey_valid (d : Dict) (role : String)
    (hrole : role = "cadre" ∨ role = "employee") :
    (repairRole d role).getKey "role" = some (.str "cadre") ∨
    (repairRole d role).getKey "role" = some (.str "employee") := by
  unfold repairRole
  by_cases h : roleMissingOrInvalid d = true
  · rw [if_pos h]
    rcases hrole with h' | h' <;> subst h'
    · exact Or.inl (by simp [Dict.getKey_setKey])
    · exact Or.inr (by simp [Dict.getKey_setKey])
  · rw [if_neg (by simpa using h)]
    unfold roleMissingOrInvalid at h
    rcases hv : d.getKey "role" with _ | v
    · rw [hv] at h; simp at h
    · rw [hv] at h
      cases v with
      | str s =>
        by_cases hs : s = "cadre"
        · subst hs; exact Or.inl rfl
        · by_cases hs2 : s = "employee"
          · subst hs2; exact Or.inr rfl
          · simp [hs, hs2] at h
      | null => simp at h
      | bool b => simp at h
      | num n => simp at h
      | arr xs => simp at h
      | obj fields => simp at h

theorem repairFields_source_path (data : Dict) (r : Report) :
    (repairFields data r).getKey "source_path" = some (.str r.path) := by
  unfold repairFields
  rw [repairStep_getKey_ne _ _ _ _ (by decide),
      repairRole_getKey_ne _ _ _ (by decide),
      repairStep_getKey_ne _ _ _ _ (by decide),
      repairStep_getKey_ne _ _ _ _ (by decide)]
  simp [Dict.getKey_setKey]

theorem summarize_ok_is_repaired (r : Report) (api : Except String (Option String))
    (summary : Dict) (h : summarize_individual r api = .ok summary) :
    ∃ fields, summary = repairFields fields r := by
  unfold summarize_individual at h
  cases api with
  | error e => simp at h
  | ok content =>
    simp only [] at h
    by_cases hc : content.getD "" = ""
    · rw [if_pos hc] at h; simp at h
    · rw [if_neg hc] at h
      rcases h1 : json_loads (content.getD "") with _ | j
      · rw [h1] at h
        rcases h2 : json_loads (stripFences (content.getD "")) with _ | j2
        · rw [h2] at h; simp at h
        · rw [h2] at h
          cases j2 with
          | obj fields => exact ⟨fields, by injection h with h; exact h.symm⟩
          | null => simp at h
          | bool b => simp at h
          | num n => simp at h
          | str s => simp at h
          | arr xs => simp at h
      · rw [h1] at h
        cases j with
        | obj fields => exact ⟨fields, by injection h with h; exact h.symm⟩
        | null => simp at h
        | bool b => simp at h
        | num n => simp at h
        | str s => simp at h
        | arr xs => simp at h

/-- C3: for every report and every model response that parses as a JSON
object, the summary returned by `summarize_individual` after repair has
`name`, `department` and `workload` present and truthy (substituted from
the report's own fields or the sentinel default when absent or falsy)
and `role` present and equal to `cadre` or `employee` (substituted with
the report's detected role when absent or invalid); the hypotheses on
the report hold for every report built by `collect_reports`. -/
theorem summary_mandatory_fields_repaired (r : Report) (api : Except String (Option String))
    (summary : Dict) (h : summarize_individual r api = .ok summary)
    (htitle : r.title ≠ "") (hdept : r.department ≠ "")
    (hrole : r.role = "cadre" ∨ r.role = "employee") :
    (∃ v, summary.getKey "name" = some v ∧ v.truthy = true) ∧
    (∃ v, summary.getKey "department" = some v ∧ v.truthy = true) ∧
    (∃ v, summary.getKey "workload" = some v ∧ v.truthy = true) ∧
    (summary.getKey "role" = some (.str "cadre") ∨
      summary.getKey "role" = some (.str "employee")) := by
  obtain ⟨fields, hf⟩ := summarize_ok_is_repaired r api summary h
  subst hf
  unfold repairFields
  refine ⟨?_, ?_, ?_, ?_⟩
  · rw [repairStep_getKey_ne _ _ _ _ (by decide), repairRole_getKey_ne _ _ _ (by decide),
        repairStep_getKey_ne _ _ _ _ (by decide)]
    exact repairStep_getKey_self _ _ _ (by simpa [Json.truthy] using htitle)
  · rw [repairStep_getKey_ne _ _ _ _ (by decide), repairRole_getKey_ne _ _ _ (by decide)]
    exact repairStep_getKey_self _ _ _ (by simpa [Json.truthy] using hdept)
  · exact repairStep_getKey_self _ _ _ (by decide)
  · rw [repairStep_getKey_ne _ _ _ _ (by decide)]
    exact repairRole_getKey_valid _ _ hrole

/-- A concrete collected report used by the witnesses. -/
def sampleReport : Report :=
  { path := "root/部门A/张三.txt", department := "部门A", title := "张三",
    role := "employee", content := "" }

/-- The model response used by the witnesses: a bare JSON object. -/
def sampleContent : String := "\x7b\"name\":\"X\"\x7d"

/-- The repaired summary `summarize_individual` produces for
`sampleReport` and `sampleContent`. -/
def sampleSummary : Dict :=
  [("name", .str "X"),
   ("source_path", .str "root/部门A/张三.txt"),
   ("department", .str "部门A"),
   ("role", .str "employee"),
   ("workload", .str "未提及/估计")]

/-- Witness for C3 at a concrete report and model response. -/
theorem summary_mandatory_fields_repaired_witness :
    (∃ v, Dict.getKey sampleSummary "name" = some v ∧ v.truthy = true) ∧
    (∃ v, Dict.getKey sampleSummary "department" = some v ∧ v.truthy = true) ∧
    (∃ v, Dict.getKey sampleSummary "workload" = some v ∧ v.truthy = true) ∧
    (Dict.getKey sampleSummary "role" = some (.str "cadre") ∨
      Dict.getKey sampleSummary "role" = some (.str "employee")) :=
  summary_mandatory_fields_repaired sampleReport (.ok (some sampleContent)) sampleSummary
    (by rfl) (by decide) (by decide) (Or.inr rfl)

/-- C10: in every record the pipeline produces — a successful repaired
summary as well as a failure placeholder — the `source_path` field is
the report's own path, overriding anything the model returned. -/
theorem source_path_forced_to_report_path (r : Report) (err : String)
    (api : Except String (Option String)) (summary : Dict)
    (h : summarize_individual r api = .ok summary) :
    summary.getKey "source_path" = some (.str r.path) ∧
    (make_failure_record r err).getKey "source_path" = some (.str r.path) := by
  obtain ⟨fields, hf⟩ := summarize_ok_is_repaired r api summary h
  subst hf
  exact ⟨repairFields_source_path fields r, rfl⟩

/-- Witness for C10 at a concrete report, error and model response. -/
theorem source_path_forced_witness :
    Dict.getKey sampleSummary "source_path" = some (.str "root/部门A/张三.txt") ∧
    (make_failure_record sampleReport "boom").getKey "source_path" =
      some (.str "root/部门A/张三.txt") :=
  source_path_forced_to_report_path sampleReport "boom" (.ok (some sampleContent))
    sampleSummary (by rfl)

/-- C1: for every run with a non-empty collection, the batch sequence
passed to aggregation (and written to `individual_summaries.json`) has
exactly one entry per collected report, in collection order; a failed
summarization contributes a failure placeholder rather than being
dropped, so the length always equals the collected-report count. -/
theorem batch_has_one_entry_per_report (cfg : RunConfig) (reports : List Report)
    (resp : Report → Except String (Option String)) (aggApi : Except String (Option String))
    (hne : reports ≠ []) :
    (run_pipeline cfg reports resp aggApi).people = processReports resp reports ∧
    (run_pipeline cfg reports resp aggApi).people.length = reports.length ∧
    ∀ i, (hi : i < reports.length) →
      (run_pipeline cfg reports resp aggApi).people[i]? =
        some (match summarize_individual reports[i] (resp reports[i]) with
              | .ok summary => summary
              | .error exc => make_failure_record reports[i] exc) := by
  have hpe : reports.isEmpty = false := by simpa [List.isEmpty_iff] using hne
  refine ⟨by simp [run_pipeline, hpe], by simp [run_pipeline, hpe, processReports], ?_⟩
  intro i hi
  simp [run_pipeline, hpe, processReports, List.getElem?_map, List.getElem?_eq_getElem hi]

/-- Run parameters used by the witnesses. -/
def cfg0 : RunConfig :=
  { timestamp := "2026-01-01T00:00:00", model := "deepseek-chat",
    aggregate_model := "deepseek-reasoner", temperature := "1.3" }

/-- Per-report chat outcome used by the witnesses. -/
def sampleResp : Report → Except String (Option String) := fun _ => .ok (some sampleContent)

/-- Witness for C1 at one concrete report and index 0. -/
theorem batch_has_one_entry_per_report_witness :
    ([sampleReport] ≠ ([] : List Report)) ∧
    (run_pipeline cfg0 [sampleReport] sampleResp (.ok (some "ok"))).people[0]? =
      some (match summarize_individual sampleReport (sampleResp sampleReport) with
            | .ok summary => summary
            | .error exc => make_failure_record sampleReport exc) :=
  ⟨by decide,
   (batch_has_one_entry_per_report cfg0 [sampleReport] sampleResp (.ok (some "ok"))
      (by decide)).2.2 0 (by decide)⟩

/-- C6: a run whose collection yields zero reports terminates with a
non-zero exit status before any LLM API call: no individual and no
aggregate request is issued. -/
theorem zero_reports_aborts_before_api (cfg : RunConfig) (reports : List Report)
    (resp : Report → Except String (Option String)) (aggApi : Except String (Option String))
    (h : reports = []) :
    (run_pipeline cfg reports resp aggApi).exitCode ≠ 0 ∧
    (run_pipeline cfg reports resp aggApi).individualCalls = 0 ∧
    (run_pipeline cfg reports resp aggApi).aggregateCalls = 0 := by
  subst h
  exact ⟨by simp [run_pipeline], by simp [run_pipeline], by simp [run_pipeline]⟩

/-- Witness for C6 at the empty report list. -/
theorem zero_reports_aborts_witness :
    (run_pipeline cfg0 [] sampleResp (.ok (some "ok"))).exitCode ≠ 0 ∧
    (run_pipeline cfg0 [] sampleResp (.ok (some "ok"))).individualCalls = 0 ∧
    (run_pipeline cfg0 [] sampleResp (.ok (some "ok"))).aggregateCalls = 0 :=
  zero_reports_aborts_before_api cfg0 [] sampleResp (.ok (some "ok")) rfl

/-- C7: when the aggregate synthesis call fails, the run exits non-zero
but `organization_review.md` is still written, containing the header
block (timestamp, model identifiers, temperature) followed by a
human-readable failure message instead of the synthesized report. -/
theorem aggregate_failure_writes_artifact (cfg : RunConfig) (reports : List Report)
    (resp : Report → Except String (Option String)) (aggApi : Except String (Option String))
    (e : String) (hne : reports ≠ []) (hagg : aggregate_review_result aggApi = .error e) :
    (run_pipeline cfg reports resp aggApi).exitCode ≠ 0 ∧
    (run_pipeline cfg reports resp aggApi).orgReviewWritten = true ∧
    (run_pipeline cfg reports resp aggApi).orgReviewContent =
      mkHeader cfg ++ ("生成失败：" ++ e) ++ "\n" := by
  have hpe : reports.isEmpty = false := by simpa [List.isEmpty_iff] using hne
  exact ⟨by simp [run_pipeline, hpe, hagg], by simp [run_pipeline, hpe],
         by simp [run_pipeline, hpe, hagg]⟩

/-- Witness for C7 at one concrete report and a failing aggregate call. -/
theorem aggregate_failure_writes_artifact_witness :
    (run_pipeline cfg0 [sampleReport] sampleResp (.error "boom")).exitCode ≠ 0 ∧
    (run_pipeline cfg0 [sampleReport] sampleResp (.error "boom")).orgReviewWritten = true ∧
    (run_pipeline cfg0 [sampleReport] sampleResp (.error "boom")).orgReviewContent =
      mkHeader cfg0 ++ ("生成失败：" ++ "调用模型失败: boom") ++ "\n" :=
  aggregate_failure_writes_artifact cfg0 [sampleReport] sampleResp (.error "boom")
    "调用模型失败: boom" (by decide) rfl

/-- C8: a non-empty model response is parsed as JSON directly; on failure
the code-fence markers are stripped and parsing is retried once; if the
retry also fails, `summarize_individual` raises an error carrying the
raw response content; and the concrete fenced response parses after
fence-stripping into the object with name `X` plus the repaired
mandatory fields. -/
theorem json_parse_retry_and_error (r : Report) (c : String)
    (hc : c ≠ "") (h1 : json_loads c = none) (h2 : json_loads (stripFences c) = none) :
    (∃ msg, summarize_individual r (.ok (some c)) = .error msg ∧
      c.toList <:+: msg.toList) ∧
    summarize_individual sampleReport (.ok (some "```json\n\x7b\"name\":\"X\"\x7d\n```")) =
      .ok sampleSummary := by
  constructor
  · refine ⟨"无法解析模型返回的 JSON: ; content=" ++ c, ?_, ?_⟩
    · simp [summarize_individual, hc, h1, h2]
    · show c.data <:+: ("无法解析模型返回的 JSON: ; content=" ++ c).data
      rw [String.data_append]
      exact (List.suffix_append _ _).isInfix
  · rfl

/-- Witness for C8 at a concrete unparsable response. -/
theorem json_parse_retry_and_error_witness :
    (∃ msg, summarize_individual sampleReport (.ok (some "not json")) = .error msg ∧
      "not json".toList <:+: msg.toList) ∧
    summarize_individual sampleReport (.ok (some "```json\n\x7b\"name\":\"X\"\x7d\n```")) =
      .ok sampleSummary :=
  json_parse_retry_and_error sampleReport "not json" (by decide) (by rfl) (by rfl)

/-- C2: for every input tree, `collect_reports` keeps exactly the regular
files whose extension (case-insensitive) is allowed, each exactly once
(given distinct filesystem paths), in lexicographic full-path order. -/
theorem collect_reports_exact_sorted (fs : List FSEntry)
    (hnd : (fs.map FSEntry.path).Nodup) :
    (∀ p, p ∈ collect_report_paths fs ↔
      ∃ e ∈ fs, e.path = p ∧ e.isFile = true ∧ allowedPath p = true) ∧
    (collect_report_paths fs).Nodup ∧
    (collect_report_paths fs).Sorted (· ≤ ·) := by
  refine ⟨?_, ?_, ?_⟩
  · intro p
    simp only [collect_report_paths, List.mem_map, List.mem_filter,
      List.mem_insertionSort, Bool.and_eq_true]
    constructor
    · rintro ⟨e, ⟨he, hf, ha⟩, rfl⟩
      exact ⟨e, he, rfl, hf, ha⟩
    · rintro ⟨e, he, rfl, hf, ha⟩
      exact ⟨e, ⟨he, hf, ha⟩, rfl⟩
  · have h1 : ((fs.insertionSort entryLE).map FSEntry.path).Nodup :=
      (((List.perm_insertionSort entryLE fs).map FSEntry.path).nodup_iff).mpr hnd
    exact h1.sublist ((List.filter_sublist _).map FSEntry.path)
  · have hs : (fs.insertionSort entryLE).Sorted entryLE :=
      List.sorted_insertionSort entryLE fs
    have hs2 : ((fs.insertionSort entryLE).filter
        (fun e => e.isFile && allowedPath e.path)).Sorted entryLE :=
      hs.sublist (List.filter_sublist (fs.insertionSort entryLE))
    exact List.Pairwise.map FSEntry.path (fun a b h => h) hs2

/-- A small concrete tree used by the C2 witness. -/
def fs0 : List FSEntry :=
  [⟨"root/b.txt", true⟩, ⟨"root/a", false⟩, ⟨"root/a/x.md", true⟩,
   ⟨"root/a/y.py", true⟩, ⟨"root/a.docx", true⟩]

/-- Witness for C2 at a concrete tree. -/
theorem collect_reports_exact_sorted_witness :
    (fs0.map FSEntry.path).Nodup ∧
    ("root/a/x.md" ∈ collect_report_paths fs0 ↔
      ∃ e ∈ fs0, e.path = "root/a/x.md" ∧ e.isFile = true ∧
        allowedPath "root/a/x.md" = true) ∧
    (collect_report_paths fs0).Sorted (· ≤ ·) :=
  ⟨by decide, (collect_reports_exact_sorted fs0 (by decide)).1 "root/a/x.md",
   (collect_reports_exact_sorted fs0 (by decide)).2.2⟩

set_option maxRecDepth 100000 in
/-- Counterexample to C4 as stated: with the bundled aggregate prompt
module loaded (the shipped configuration) and a plan addendum supplied,
the user prompt built for the synthesis call contains neither the
addendum rendered literally nor the `None` sentinel. -/
theorem aggregate_prompt_claim_cex :
    strContains (build_aggregate_prompt true [] (some "PLANXYZ")) "PLANXYZ" = false ∧
    strContains (build_aggregate_prompt true [] (some "PLANXYZ")) "None" = false := by
  exact ⟨by rfl, by rfl⟩

/-- C4 amended: when the bundled `prompts/aggregate/prompt.py` builder
loads and returns successfully, the aggregate user prompt is that
module's own prompt over the compacted summaries, which ignores the
plan addendum; only the inline fallback prompt (used when the module is
unavailable or raises) consists of the static industry-context string,
then the indent-2 JSON serialization of the compacted summaries, then
the plan addendum rendered literally or the explicit `None` sentinel
when absent. -/
theorem aggregate_prompt_shape (people : List Dict) (extra_prompt : Option String) :
    build_aggregate_prompt true people extra_prompt =
      aggregate_module_user_prompt (people.map compactPerson) ∧
    (∃ mid tail,
      (build_aggregate_prompt false people extra_prompt).data =
        "Industry background: ".data ++ INDUSTRY_CONTEXT.data ++ mid ++
        (dumpVal 0 (.arr ((people.map compactPerson).map Json.obj))).data ++
        "\n\nAdditional context: ".data ++
        (aggregateAddendum extra_prompt).data ++ tail) := by
  refine ⟨rfl, "\n\nStructured individual summaries:\n".data,
    "\nPlease generate the organization report per the system prompt requirements.".data, ?_⟩
  simp [build_aggregate_prompt, String.data_append]
